import Mathlib

/-!
Verification of the layer-mesh generation and stacking engine of
`src/to_stl.py` (image-to-stl). The Python source is shallowly embedded:
numpy float values become `ℚ`, 2-D numpy arrays become `NpArray2`
(dimensions plus an index function), fallible numpy indexing becomes
`Option`, and Python's banker's rounding becomes `pyRound`.
-/

/-- A 2-D numpy array of floats: a shape `(rows, cols)` together with the
entry function. Entries at indices outside the shape are irrelevant. -/
structure NpArray2 where
  rows : ℕ
  cols : ℕ
  get : ℕ → ℕ → ℚ

/-- Checked numpy indexing `a[y, x]`: `none` models an `IndexError`. -/
def npIndex (a : NpArray2) (y x : ℕ) : Option ℚ :=
  if y < a.rows ∧ x < a.cols then some (a.get y x) else none

/-- Python's built-in `round` on an exact rational: round half to even
(banker's rounding), as used on the numpy float scalar `z / height_step_mm`. -/
def pyRound (q : ℚ) : ℤ :=
  if q - q.floor < 1/2 then q.floor
  else if 1/2 < q - q.floor then q.floor + 1
  else if q.floor % 2 = 0 then q.floor else q.floor + 1

/-- The quantization step of `create_layer_mesh` (to_stl.py lines 97-98):
`if height_step_mm > 0: z = round(z / height_step_mm) * height_step_mm`.
The clamp on line 99 (`z = max(min_layer_height, z)`) is commented out in
the source and therefore absent here. -/
def quantize (z step : ℚ) : ℚ :=
  if 0 < step then (pyRound (z / step) : ℚ) * step else z

/-- A 3-D point, `(x, y, z)`. -/
abbrev Vec3 := ℚ × ℚ × ℚ

/-- Componentwise vector subtraction, `a - b`. -/
def vsub (a b : Vec3) : Vec3 := (a.1 - b.1, a.2.1 - b.2.1, a.2.2 - b.2.2)

/-- Scalar multiple `a • v`, modelling numpy's `normal / norm` with
`a = 1 / norm`. -/
def vecScale (a : ℚ) (v : Vec3) : Vec3 := (a * v.1, a * v.2.1, a * v.2.2)

/-- `np.cross a b`. -/
def cross (a b : Vec3) : Vec3 :=
  (a.2.1 * b.2.2 - a.2.2 * b.2.1,
   a.2.2 * b.1 - a.1 * b.2.2,
   a.1 * b.2.1 - a.2.1 * b.1)

/-- Dot product of two vectors. -/
def dot3 (a b : Vec3) : ℚ := a.1 * b.1 + a.2.1 * b.2.1 + a.2.2 * b.2.2

/-- Squared Euclidean norm; `np.linalg.norm v` squared. -/
def norm3Sq (v : Vec3) : ℚ := v.1 * v.1 + v.2.1 * v.2.1 + v.2.2 * v.2.2

/-- Exact rational square root, modelling `np.linalg.norm`'s square root.
On every cross product this mesh generator produces the argument is the
square of a rational (the cross products are axis-aligned), so this is
exactly the Euclidean norm everywhere the code evaluates it. -/
def ratSqrt (q : ℚ) : ℚ := (Nat.sqrt q.num.toNat : ℚ) / (Nat.sqrt q.den : ℚ)

/-- One STL triangle: the three vertices stored in `stl_mesh.vectors[i]`. -/
structure Tri where
  v0 : Vec3
  v1 : Vec3
  v2 : Vec3
deriving DecidableEq

/-- `np.cross(v1 - v0, v2 - v0)` for a triangle: the unnormalized normal
of to_stl.py lines 141-143. -/
def crossOf (t : Tri) : Vec3 := cross (vsub t.v1 t.v0) (vsub t.v2 t.v0)

/-- The stored normal (to_stl.py lines 144-147): the cross product scaled
to unit length if it is nonzero, else the `(0, 0, 1)` fallback. -/
def triNormal (t : Tri) : Vec3 :=
  if crossOf t = ((0 : ℚ), (0 : ℚ), (0 : ℚ)) then (0, 0, 1)
  else vecScale (1 / ratSqrt (norm3Sq (crossOf t))) (crossOf t)

/-- The 8 corner vertices `v0 .. v7` of the box emitted for grid cell
`(y, x)` (to_stl.py lines 104-111): footprint
`[x*ps, (x+1)*ps] × [y*ps, (y+1)*ps]`, from height `s` to height `z`. -/
def cellCorners (x y : ℕ) (ps s z : ℚ) : List Vec3 :=
  [((x : ℚ) * ps, (y : ℚ) * ps, s),
   (((x : ℚ) + 1) * ps, (y : ℚ) * ps, s),
   (((x : ℚ) + 1) * ps, ((y : ℚ) + 1) * ps, s),
   ((x : ℚ) * ps, ((y : ℚ) + 1) * ps, s),
   ((x : ℚ) * ps, (y : ℚ) * ps, z),
   (((x : ℚ) + 1) * ps, (y : ℚ) * ps, z),
   (((x : ℚ) + 1) * ps, ((y : ℚ) + 1) * ps, z),
   ((x : ℚ) * ps, ((y : ℚ) + 1) * ps, z)]

/-- The 12 triangles emitted for one grid cell, in the face order of
to_stl.py lines 116-129 (indices into `v0 .. v7`):
bottom `[0,2,1] [0,3,2]`, top `[4,5,6] [4,6,7]`, front `[0,1,5] [0,5,4]`,
back `[2,3,7] [2,7,6]`, left `[0,4,7] [0,7,3]`, right `[1,2,6] [1,6,5]`. -/
def cellTris (x y : ℕ) (ps s z : ℚ) : List Tri :=
  [⟨((x : ℚ) * ps, (y : ℚ) * ps, s),
    (((x : ℚ) + 1) * ps, ((y : ℚ) + 1) * ps, s),
    (((x : ℚ) + 1) * ps, (y : ℚ) * ps, s)⟩,
   ⟨((x : ℚ) * ps, (y : ℚ) * ps, s),
    ((x : ℚ) * ps, ((y : ℚ) + 1) * ps, s),
    (((x : ℚ) + 1) * ps, ((y : ℚ) + 1) * ps, s)⟩,
   ⟨((x : ℚ) * ps, (y : ℚ) * ps, z),
    (((x : ℚ) + 1) * ps, (y : ℚ) * ps, z),
    (((x : ℚ) + 1) * ps, ((y : ℚ) + 1) * ps, z)⟩,
   ⟨((x : ℚ) * ps, (y : ℚ) * ps, z),
    (((x : ℚ) + 1) * ps, ((y : ℚ) + 1) * ps, z),
    ((x : ℚ) * ps, ((y : ℚ) + 1) * ps, z)⟩,
   ⟨((x : ℚ) * ps, (y : ℚ) * ps, s),
    (((x : ℚ) + 1) * ps, (y : ℚ) * ps, s),
    (((x : ℚ) + 1) * ps, (y : ℚ) * ps, z)⟩,
   ⟨((x : ℚ) * ps, (y : ℚ) * ps, s),
    (((x : ℚ) + 1) * ps, (y : ℚ) * ps, z),
    ((x : ℚ) * ps, (y : ℚ) * ps, z)⟩,
   ⟨(((x : ℚ) + 1) * ps, ((y : ℚ) + 1) * ps, s),
    ((x : ℚ) * ps, ((y : ℚ) + 1) * ps, s),
    ((x : ℚ) * ps, ((y : ℚ) + 1) * ps, z)⟩,
   ⟨(((x : ℚ) + 1) * ps, ((y : ℚ) + 1) * ps, s),
    ((x : ℚ) * ps, ((y : ℚ) + 1) * ps, z),
    (((x : ℚ) + 1) * ps, ((y : ℚ) + 1) * ps, z)⟩,
   ⟨((x : ℚ) * ps, (y : ℚ) * ps, s),
    ((x : ℚ) * ps, (y : ℚ) * ps, z),
    ((x : ℚ) * ps, ((y : ℚ) + 1) * ps, z)⟩,
   ⟨((x : ℚ) * ps, (y : ℚ) * ps, s),
    ((x : ℚ) * ps, ((y : ℚ) + 1) * ps, z),
    ((x : ℚ) * ps, ((y : ℚ) + 1) * ps, s)⟩,
   ⟨(((x : ℚ) + 1) * ps, (y : ℚ) * ps, s),
    (((x : ℚ) + 1) * ps, ((y : ℚ) + 1) * ps, s),
    (((x : ℚ) + 1) * ps, ((y : ℚ) + 1) * ps, z)⟩,
   ⟨(((x : ℚ) + 1) * ps, (y : ℚ) * ps, s),
    (((x : ℚ) + 1) * ps, ((y : ℚ) + 1) * ps, z),
    (((x : ℚ) + 1) * ps, (y : ℚ) * ps, z)⟩]

/-- One cell's triangles paired with their stored normals, as
`create_layer_mesh` fills `stl_mesh.vectors` / `stl_mesh.normals`. -/
def cellTriNormals (x y : ℕ) (ps s z : ℚ) : List (Tri × Vec3) :=
  (cellTris x y ps s z).map fun t => (t, triNormal t)

/-- `previous_heights[y, x] if previous_heights is not None else 0`
(to_stl.py line 94); `none` models the `IndexError` path. -/
def startHeight (prev : Option NpArray2) (y x : ℕ) : Option ℚ :=
  match prev with
  | none => some 0
  | some a => npIndex a y x

/-- The value of `start_height` at a cell the loop actually reaches. -/
def cellStart (prev : Option NpArray2) (y x : ℕ) : ℚ :=
  (startHeight prev y x).getD 0

/-- The cell's new ceiling, `z` after lines 96-101:
`start_height + quantize (height_map[y, x])`. -/
def cellCeil (hm : NpArray2) (step : ℚ) (prev : Option NpArray2) (y x : ℕ) : ℚ :=
  cellStart prev y x + quantize (hm.get y x) step

/-- The `next_heights` array returned by `create_layer_mesh`
(initialised by `np.zeros_like`, then filled cell by cell). -/
def nextHeights (hm : NpArray2) (step : ℚ) (prev : Option NpArray2) : NpArray2 :=
  ⟨hm.rows, hm.cols, fun y x =>
    if y < hm.rows ∧ x < hm.cols then cellCeil hm step prev y x else 0⟩

/-- All triangles (with normals) of the mesh built by `create_layer_mesh`,
cells in row-major loop order (`y` outer, `x` inner), 12 per cell. -/
def meshTris (hm : NpArray2) (step ps : ℚ) (prev : Option NpArray2) :
    List (Tri × Vec3) :=
  (List.range hm.rows).flatMap fun y =>
    (List.range hm.cols).flatMap fun x =>
      cellTriNormals x y ps (cellStart prev y x) (cellCeil hm step prev y x)

/-- `create_layer_mesh(height_map, height_step_mm, pixel_size,
previous_heights)` (to_stl.py lines 81-152). The result is `none` exactly
when some loop iteration would raise an `IndexError` reading
`previous_heights[y, x]`; in that case no mesh and no height array are
returned. There is no shape check of its own in the source. -/
def create_layer_mesh (hm : NpArray2) (step ps : ℚ) (prev : Option NpArray2) :
    Option (List (Tri × Vec3) × NpArray2) :=
  if ∀ y < hm.rows, ∀ x < hm.cols, (startHeight prev y x).isSome = true then
    some (meshTris hm step ps prev, nextHeights hm step prev)
  else none

/-- Bridge between Batteries' computable `Rat.floor` and Mathlib's `⌊·⌋`. -/
theorem ratFloor_eq_floor (q : ℚ) : q.floor = ⌊q⌋ := by
  rw [Rat.floor_def', ← Rat.floor_def]

/-- The signed-volume contribution of one triangle (divergence theorem):
`v0 · (v1 × v2) / 6`. Summed over a closed outward-oriented surface this
gives the enclosed volume. -/
def triVol (t : Tri) : ℚ := dot3 t.v0 (cross t.v1 t.v2) / 6

/-- Sum of the signed-volume contributions of a list of mesh triangles. -/
def signedVolSum (l : List (Tri × Vec3)) : ℚ := (l.map fun tn => triVol tn.1).sum

/-- A vector with at most one nonzero component. -/
def axisAligned (v : Vec3) : Prop :=
  (v.2.1 = 0 ∧ v.2.2 = 0) ∨ (v.1 = 0 ∧ v.2.2 = 0) ∨ (v.1 = 0 ∧ v.2.1 = 0)

/-- The layer kinds of `to_stl.py` (`class LayerType(Enum)`). -/
inductive LayerType where
  | CYAN
  | YELLOW
  | MAGENTA
  | KEY
  | BASE
deriving DecidableEq

/-- `StlConfig` (to_stl.py lines 26-48). The two per-layer dictionaries
are total functions here; the source dictionaries carry the four color
keys and are only ever read at those keys. -/
structure StlConfig where
  base_height : ℚ
  pixel_size : ℚ
  height_step_mm : ℚ
  layer_heights : LayerType → ℚ
  layer_mins : LayerType → ℚ

/-- The default `StlConfig`: `base_height = 0.2`, `pixel_size = 1.0`,
`height_step_mm = 0.0`, all four maxima `1.6`, all four minima `0`. -/
def defaultConfig : StlConfig :=
  ⟨1/5, 1, 0, fun _ => 8/5, fun _ => 0⟩

/-- `normalize_thickness(intensity, max_distance, min_thickness)`
(to_stl.py lines 49-62), the element-wise scalar:
`(1 - intensity / 255) * (max_distance - min_thickness) + min_thickness`. -/
def normalize_thickness (intensity max_distance min_thickness : ℚ) : ℚ :=
  (1 - intensity / 255) * (max_distance - min_thickness) + min_thickness

/-- Modelled from the spec: the 3-channel pixel grid `img.pixelated`
produced by the external image-pixelation collaborator (`ImageAnalyzer`,
which is not under src/): a rows × cols grid of triples of integers, each
intended to lie in 0..255. The spec fixes no machine dtype at this
boundary, so the channel values are exact natural numbers here. -/
structure PixelGrid where
  rows : ℕ
  cols : ℕ
  px : ℕ → ℕ → ℕ × ℕ × ℕ

/-- Cyan thickness grid: `normalize_thickness(img.pixelated[:, :, 0], ...)`
(to_stl.py line 65). -/
def c_channel (pg : PixelGrid) (cfg : StlConfig) : NpArray2 :=
  ⟨pg.rows, pg.cols, fun y x =>
    normalize_thickness ((pg.px y x).1 : ℚ)
      (cfg.layer_heights LayerType.CYAN) (cfg.layer_mins LayerType.CYAN)⟩

/-- Yellow thickness grid (to_stl.py line 66). -/
def y_channel (pg : PixelGrid) (cfg : StlConfig) : NpArray2 :=
  ⟨pg.rows, pg.cols, fun y x =>
    normalize_thickness ((pg.px y x).2.1 : ℚ)
      (cfg.layer_heights LayerType.YELLOW) (cfg.layer_mins LayerType.YELLOW)⟩

/-- Magenta thickness grid (to_stl.py line 67). -/
def m_channel (pg : PixelGrid) (cfg : StlConfig) : NpArray2 :=
  ⟨pg.rows, pg.cols, fun y x =>
    normalize_thickness ((pg.px y x).2.2 : ℚ)
      (cfg.layer_heights LayerType.MAGENTA) (cfg.layer_mins LayerType.MAGENTA)⟩

/-- `avg_pixels = (p0 + p1 + p2) / 3.0` (to_stl.py line 71), with exact
integer channel values (see `PixelGrid`). -/
def avg_pixels (pg : PixelGrid) : NpArray2 :=
  ⟨pg.rows, pg.cols, fun y x =>
    (((pg.px y x).1 : ℚ) + ((pg.px y x).2.1 : ℚ) + ((pg.px y x).2.2 : ℚ)) / 3⟩

/-- Key/intensity thickness grid (to_stl.py line 72):
`normalize_thickness(avg_pixels, KEY max, KEY min)`. -/
def intensity_map (pg : PixelGrid) (cfg : StlConfig) : NpArray2 :=
  ⟨pg.rows, pg.cols, fun y x =>
    normalize_thickness ((avg_pixels pg).get y x)
      (cfg.layer_heights LayerType.KEY) (cfg.layer_mins LayerType.KEY)⟩

/-- The numpy cast of a nonnegative float to `np.uint8`, as performed by
`np.full((y, x), config.base_height, dtype=np.uint8)` (to_stl.py line
156): truncation toward zero, wrapping modulo 256. -/
def uint8_trunc (q : ℚ) : ℕ := q.floor.toNat % 256

/-- All-zero array, `np.zeros((y_pixels, x_pixels))`. -/
def zerosArr (rows cols : ℕ) : NpArray2 := ⟨rows, cols, fun _ _ => 0⟩

/-- The height map built by `create_base_plate` (to_stl.py line 156):
`np.full((y_pixels, x_pixels), config.base_height, dtype=np.uint8)` —
note the `uint8` dtype truncates a fractional `base_height`. -/
def base_plate_height_map (x_pixels y_pixels : ℕ) (cfg : StlConfig) : NpArray2 :=
  ⟨y_pixels, x_pixels, fun _ _ => (uint8_trunc cfg.base_height : ℚ)⟩

/-- `create_base_plate(x_pixels, y_pixels, config)` (to_stl.py lines
154-165): builds a layer mesh over the uint8-truncated constant height
map with an all-zero floor and discards the returned height array. -/
def create_base_plate (x_pixels y_pixels : ℕ) (cfg : StlConfig) :
    Option (List (Tri × Vec3)) :=
  (create_layer_mesh (base_plate_height_map x_pixels y_pixels cfg)
    cfg.height_step_mm cfg.pixel_size (some (zerosArr y_pixels x_pixels))).map
    Prod.fst

/-- `create_color_layer` (to_stl.py lines 167-176): a direct call through
to `create_layer_mesh` with the config's step and pixel size. -/
def create_color_layer (hm : NpArray2) (prev : NpArray2) (cfg : StlConfig) :
    Option (List (Tri × Vec3) × NpArray2) :=
  create_layer_mesh hm cfg.height_step_mm cfg.pixel_size (some prev)

/-- `base_heights = np.full_like(c_channel, config.base_height)`
(to_stl.py line 209): the floor surface handed to the cyan layer. -/
def base_heights (pg : PixelGrid) (cfg : StlConfig) : NpArray2 :=
  ⟨pg.rows, pg.cols, fun _ _ => cfg.base_height⟩

/-- `to_stl_cym(img, config)` (to_stl.py lines 197-231): base plate, then
cyan, yellow, magenta and key layers, threading `previous_heights`
through the loop; the meshes are collected in insertion order. The
3-channel check (line 201) always passes for a `PixelGrid`, which is
3-channel by construction. -/
def to_stl_cym (pg : PixelGrid) (cfg : StlConfig) :
    Option (List (String × List (Tri × Vec3))) :=
  match create_base_plate pg.cols pg.rows cfg with
  | none => none
  | some base_mesh =>
    match create_color_layer (c_channel pg cfg) (base_heights pg cfg) cfg with
    | none => none
    | some (cyan_mesh, h1) =>
      match create_color_layer (y_channel pg cfg) h1 cfg with
      | none => none
      | some (yellow_mesh, h2) =>
        match create_color_layer (m_channel pg cfg) h2 cfg with
        | none => none
        | some (magenta_mesh, h3) =>
          match create_color_layer (intensity_map pg cfg) h3 cfg with
          | none => none
          | some (key_mesh, _) =>
            some [("white_base_mesh", base_mesh), ("cyan_mesh", cyan_mesh),
                  ("yellow_mesh", yellow_mesh), ("magenta_mesh", magenta_mesh),
                  ("white_intensity_mesh", key_mesh)]

/-- The per-cell thickness as the spec's words describe it (§4.3 step 2):
quantize, then clamp to at least the minimum thickness floor. Stated for
refinement comparison against the code's `create_layer_mesh`, whose
clamp is commented out. -/
def spec_layer_thickness (raw step minHeightFloor : ℚ) : ℚ :=
  max minHeightFloor (quantize raw step)

/-- `startHeight` succeeds on a real floor array exactly when the index is
inside the floor's shape. -/
theorem startHeight_some_isSome (prev : NpArray2) (y x : ℕ) :
    (startHeight (some prev) y x).isSome = true ↔ (y < prev.rows ∧ x < prev.cols) := by
  by_cases h : y < prev.rows ∧ x < prev.cols <;> simp [startHeight, npIndex, h]

/-- When the floor covers the height map's index range, `create_layer_mesh`
returns its mesh and ceiling array. -/
theorem create_layer_mesh_some (hm prev : NpArray2) (step ps : ℚ)
    (hr : hm.rows ≤ prev.rows) (hc : hm.cols ≤ prev.cols) :
    create_layer_mesh hm step ps (some prev) =
      some (meshTris hm step ps (some prev), nextHeights hm step (some prev)) := by
  rw [create_layer_mesh, if_pos]
  intro y hy x hx
  rw [startHeight_some_isSome]
  omega

/-- In-range `start_height` is the floor entry. -/
theorem cellStart_eq (prev : NpArray2) (y x : ℕ) (hy : y < prev.rows)
    (hx : x < prev.cols) : cellStart (some prev) y x = prev.get y x := by
  simp [cellStart, startHeight, npIndex, hy, hx]

/-- In-range entries of the returned ceiling array. -/
theorem nextHeights_get (hm : NpArray2) (step : ℚ) (prev : Option NpArray2)
    (y x : ℕ) (hy : y < hm.rows) (hx : x < hm.cols) :
    (nextHeights hm step prev).get y x = cellCeil hm step prev y x := by
  simp [nextHeights, hy, hx]

/-- Python's round is nonnegative on nonnegative input. -/
theorem pyRound_nonneg (q : ℚ) (h : 0 ≤ q) : 0 ≤ pyRound q := by
  have hf : (0 : ℤ) ≤ q.floor := by
    rw [ratFloor_eq_floor]
    exact Int.floor_nonneg.mpr h
  rw [pyRound]
  split
  · exact hf
  · split
    · omega
    · split
      · exact hf
      · omega

/-- Quantization preserves nonnegativity. -/
theorem quantize_nonneg (z step : ℚ) (h : 0 ≤ z) : 0 ≤ quantize z step := by
  rw [quantize]
  split
  case isTrue hs =>
    have hp : (0 : ℤ) ≤ pyRound (z / step) := pyRound_nonneg _ (div_nonneg h hs.le)
    have : (0 : ℚ) ≤ (pyRound (z / step) : ℚ) := by exact_mod_cast hp
    exact mul_nonneg this hs.le
  case isFalse => exact h

/-- Claim C7: `normalize_thickness` is the linear inverted map
`(1 - intensity/255) * (max - min) + min`; at intensity 0 it returns the
maximum height and at intensity 255 it returns the minimum height. -/
theorem C7_thickness_mapping (i maxH minH : ℚ) :
    normalize_thickness i maxH minH = (1 - i / 255) * (maxH - minH) + minH ∧
    normalize_thickness 0 maxH minH = maxH ∧
    normalize_thickness 255 maxH minH = minH := by
  refine ⟨rfl, ?_, ?_⟩ <;> rw [normalize_thickness] <;> norm_num

/-- Claim C10: the ceiling array returned by `create_layer_mesh` does not
depend on `pixel_size` — two calls differing only in pixel size return
identical `next_heights` (pixel size only moves vertex x/y coordinates). -/
theorem C10_ceiling_independent_of_pixel_size (hm : NpArray2) (step : ℚ)
    (prev : Option NpArray2) (ps1 ps2 : ℚ) :
    Option.map Prod.snd (create_layer_mesh hm step ps1 prev) =
    Option.map Prod.snd (create_layer_mesh hm step ps2 prev) := by
  rw [create_layer_mesh, create_layer_mesh]
  split
  case isTrue h => rfl
  case isFalse h => rfl

/-- Claim C6 (counterexample): a 1×1 height map with a 2×2 floor surface
is a shape mismatch, yet `create_layer_mesh` produces a mesh — no
`ShapeMismatch` is signalled. -/
theorem C6_counterexample :
    (create_layer_mesh ⟨1, 1, fun _ _ => 2⟩ 0 1 (some ⟨2, 2, fun _ _ => 0⟩)).isSome
      = true ∧
    ((1, 1) : ℕ × ℕ) ≠ ((2, 2) : ℕ × ℕ) := by
  refine ⟨?_, by decide⟩
  rw [create_layer_mesh_some ⟨1, 1, fun _ _ => 2⟩ ⟨2, 2, fun _ _ => 0⟩ 0 1
    (by decide) (by decide)]
  rfl

/-- Claim C6 (amended): `create_layer_mesh` performs no shape check at
all. A call returns a mesh and ceiling exactly when the height map is
empty in some dimension or the floor surface's shape covers the height
map's; a floor that is too small fails by out-of-bounds indexing during
construction, and a mismatched larger floor is accepted silently. -/
theorem C6_amended_no_shape_check (hm prev : NpArray2) (step ps : ℚ) :
    (create_layer_mesh hm step ps (some prev)).isSome = true ↔
      (hm.rows = 0 ∨ hm.cols = 0 ∨
        (hm.rows ≤ prev.rows ∧ hm.cols ≤ prev.cols)) := by
  constructor
  · intro h
    rw [create_layer_mesh] at h
    split at h
    case isTrue hcond =>
      rcases Nat.eq_zero_or_pos hm.rows with h0 | hr
      · exact Or.inl h0
      rcases Nat.eq_zero_or_pos hm.cols with h0 | hc
      · exact Or.inr (Or.inl h0)
      have hb := (startHeight_some_isSome prev (hm.rows - 1) (hm.cols - 1)).mp
        (hcond (hm.rows - 1) (by omega) (hm.cols - 1) (by omega))
      exact Or.inr (Or.inr (by omega))
    case isFalse => simp at h
  · intro h
    rw [create_layer_mesh, if_pos]
    · rfl
    intro y hy x hx
    rw [startHeight_some_isSome]
    rcases h with h | h | ⟨h1, h2⟩ <;> omega

/-- Concrete 1×1 height map holding 0.04, below the 0.1 quantization step. -/
def hmC2 : NpArray2 := ⟨1, 1, fun _ _ => 1/25⟩

/-- Concrete 1×1 all-zero floor surface. -/
def zeros1 : NpArray2 := ⟨1, 1, fun _ _ => 0⟩

/-- Concrete 1×1 height map holding 1. -/
def hm1 : NpArray2 := ⟨1, 1, fun _ _ => 1⟩

/-- 0.04 quantized at step 0.1 rounds to 0. -/
theorem quantize_c2 : quantize (1/25) (1/10) = 0 := by
  rw [quantize, if_pos (by norm_num)]
  have h1 : ((1 : ℚ)/25) / ((1 : ℚ)/10) = 2/5 := by norm_num
  rw [h1]
  have h2 : pyRound (2/5) = 0 := by rw [pyRound]; norm_num [Rat.floor_def']
  rw [h2]
  norm_num

/-- Claim C2 (counterexample): with raw thickness 0.04, step 0.1 and
per-layer minimum floor 0.04, the code's ceiling is 0 + round-to-0 = 0,
not the spec's clamped 0 + max(0.04, 0) = 0.04 — the clamp of step 2 is
absent from `create_layer_mesh` (line 99 is commented out). -/
theorem C2_counterexample :
    Option.map (fun r => r.2.get 0 0)
      (create_layer_mesh hmC2 (1/10) 1 (some zeros1)) = some 0 ∧
    zeros1.get 0 0 + spec_layer_thickness (hmC2.get 0 0) (1/10) (1/25) = 1/25 ∧
    Option.map (fun r => r.2.get 0 0)
      (create_layer_mesh hmC2 (1/10) 1 (some zeros1)) ≠
      some (zeros1.get 0 0 + spec_layer_thickness (hmC2.get 0 0) (1/10) (1/25)) := by
  have hget : (nextHeights hmC2 (1/10) (some zeros1)).get 0 0 = 0 := by
    rw [nextHeights_get _ _ _ 0 0 (by decide) (by decide), cellCeil,
      cellStart_eq zeros1 0 0 (by decide) (by decide)]
    show (0 : ℚ) + quantize (1/25) (1/10) = 0
    rw [quantize_c2]
    norm_num
  have hcm := create_layer_mesh_some hmC2 zeros1 (1/10) 1 (by decide) (by decide)
  have hspec : zeros1.get 0 0 +
      spec_layer_thickness (hmC2.get 0 0) (1/10) (1/25) = 1/25 := by
    show (0 : ℚ) + spec_layer_thickness (1/25) (1/10) (1/25) = 1/25
    rw [spec_layer_thickness]
    show (0 : ℚ) + max (1/25) (quantize (1/25) (1/10)) = 1/25
    rw [quantize_c2]
    norm_num
  refine ⟨by rw [hcm]; simp only [Option.map_some']; rw [hget], hspec, ?_⟩
  rw [hcm, hspec]
  simp only [Option.map_some', ne_eq, Option.some.injEq]
  rw [hget]
  norm_num

/-- Claim C2 (amended): the thickness used per cell is the raw heightMap
value, rounded to the nearest step multiple when the step is positive,
with NO minimum-thickness clamp (the clamp is commented out in the
source); the new ceiling is the floor entry plus that thickness. -/
theorem C2_amended_no_clamp (hm prev : NpArray2) (step ps : ℚ)
    (hr : prev.rows = hm.rows) (hc : prev.cols = hm.cols) :
    create_layer_mesh hm step ps (some prev) =
      some (meshTris hm step ps (some prev), nextHeights hm step (some prev)) ∧
    ∀ y < hm.rows, ∀ x < hm.cols,
      (nextHeights hm step (some prev)).get y x =
        prev.get y x + quantize (hm.get y x) step := by
  refine ⟨create_layer_mesh_some hm prev step ps (by omega) (by omega), ?_⟩
  intro y hy x hx
  rw [nextHeights_get _ _ _ y x hy hx, cellCeil,
    cellStart_eq prev y x (by omega) (by omega)]

/-- Witness for `C2_amended_no_clamp` at a concrete 1×1 input. -/
theorem C2_amended_no_clamp_witness :
    (nextHeights hm1 0 (some zeros1)).get 0 0 =
      zeros1.get 0 0 + quantize (hm1.get 0 0) 0 :=
  (C2_amended_no_clamp hm1 zeros1 0 1 rfl rfl).2 0 (by decide) 0 (by decide)

/-- Claim C4: for a nonnegative height map and a floor of the same shape,
the returned ceiling has the height map's shape and dominates the floor
cell-wise; a cell's ceiling equals its floor exactly when the computed
(post-quantization) thickness is zero — the builder has no separate
thickness floor (it is identically absent/zero in the source). -/
theorem C4_monotonic_stacking (hm prev : NpArray2) (step ps : ℚ)
    (hr : prev.rows = hm.rows) (hc : prev.cols = hm.cols)
    (hnn : ∀ y < hm.rows, ∀ x < hm.cols, 0 ≤ hm.get y x) :
    create_layer_mesh hm step ps (some prev) =
      some (meshTris hm step ps (some prev), nextHeights hm step (some prev)) ∧
    (nextHeights hm step (some prev)).rows = hm.rows ∧
    (nextHeights hm step (some prev)).cols = hm.cols ∧
    ∀ y < hm.rows, ∀ x < hm.cols,
      prev.get y x ≤ (nextHeights hm step (some prev)).get y x ∧
      ((nextHeights hm step (some prev)).get y x = prev.get y x ↔
        quantize (hm.get y x) step = 0) := by
  refine ⟨create_layer_mesh_some hm prev step ps (by omega) (by omega), rfl, rfl, ?_⟩
  intro y hy x hx
  rw [nextHeights_get _ _ _ y x hy hx, cellCeil,
    cellStart_eq prev y x (by omega) (by omega)]
  constructor
  · exact le_add_of_nonneg_right (quantize_nonneg _ _ (hnn y hy x hx))
  · exact add_right_eq_self

/-- Witness for `C4_monotonic_stacking` at a concrete 1×1 input. -/
theorem C4_monotonic_stacking_witness :
    zeros1.get 0 0 ≤ (nextHeights hm1 0 (some zeros1)).get 0 0 :=
  ((C4_monotonic_stacking hm1 zeros1 0 1 rfl rfl
    (by intro y hy x hx; show (0 : ℚ) ≤ 1; norm_num)).2.2.2 0 (by decide) 0
    (by decide)).1

/-- A zero quantization step leaves the thickness unchanged. -/
theorem quantize_zero_step (z : ℚ) : quantize z 0 = z := by
  rw [quantize, if_neg (lt_irrefl 0)]

/-- The uint8 cast truncates the default base height 0.2 to 0. -/
theorem uint8_trunc_fifth : uint8_trunc (1/5) = 0 := by
  rw [uint8_trunc]
  norm_num [Rat.floor_def']

/-- Claim C1: with the default config (`base_height = 0.2`) on a 2×2 grid,
the base plate's height map is uint8-truncated to 0, so every cell's
ceiling is 0, not 0.2 — the slab has zero height, contradicting the
claimed uniform `base_height` slab. -/
theorem C1_base_plate_uint8_truncation :
    defaultConfig.base_height = 1/5 ∧
    (base_plate_height_map 2 2 defaultConfig).get 0 0 = 0 ∧
    create_base_plate 2 2 defaultConfig =
      some (meshTris (base_plate_height_map 2 2 defaultConfig)
        defaultConfig.height_step_mm defaultConfig.pixel_size
        (some (zerosArr 2 2))) ∧
    (nextHeights (base_plate_height_map 2 2 defaultConfig)
      defaultConfig.height_step_mm (some (zerosArr 2 2))).get 0 0 = 0 ∧
    (nextHeights (base_plate_height_map 2 2 defaultConfig)
      defaultConfig.height_step_mm (some (zerosArr 2 2))).get 0 1 = 0 ∧
    (nextHeights (base_plate_height_map 2 2 defaultConfig)
      defaultConfig.height_step_mm (some (zerosArr 2 2))).get 1 0 = 0 ∧
    (nextHeights (base_plate_height_map 2 2 defaultConfig)
      defaultConfig.height_step_mm (some (zerosArr 2 2))).get 1 1 = 0 ∧
    (1 : ℚ)/5 ≠ 0 := by
  have hget : ∀ y x : ℕ, (base_plate_height_map 2 2 defaultConfig).get y x = 0 := by
    intro y x
    show ((uint8_trunc (1/5) : ℕ) : ℚ) = 0
    rw [uint8_trunc_fifth]
    norm_num
  have hcell : ∀ y < 2, ∀ x < 2,
      (nextHeights (base_plate_height_map 2 2 defaultConfig)
        defaultConfig.height_step_mm (some (zerosArr 2 2))).get y x = 0 := by
    intro y hy x hx
    rw [nextHeights_get _ _ _ y x hy hx, cellCeil,
      cellStart_eq (zerosArr 2 2) y x hy hx]
    show (0 : ℚ) + quantize ((base_plate_height_map 2 2 defaultConfig).get y x) 0 = 0
    rw [quantize_zero_step, hget]
    norm_num
  refine ⟨rfl, hget 0 0, ?_, hcell 0 (by decide) 0 (by decide),
    hcell 0 (by decide) 1 (by decide), hcell 1 (by decide) 0 (by decide),
    hcell 1 (by decide) 1 (by decide), by norm_num⟩
  rw [create_base_plate, create_layer_mesh_some _ _ _ _ (by decide) (by decide)]
  rfl

/-- Concrete 1×1 all-black pixel grid. -/
def pg1 : PixelGrid := ⟨1, 1, fun _ _ => (0, 0, 0)⟩

/-- Claim C5 (counterexample): with the default config, the ceiling the
base-plate build actually computes is 0 (uint8 truncation of 0.2), while
the floor surface handed to the cyan layer is the freshly constructed
`base_heights` array holding 0.2 — cyan's floor is not the base plate's
ceiling. -/
theorem C5_counterexample :
    (nextHeights (base_plate_height_map pg1.cols pg1.rows defaultConfig)
      defaultConfig.height_step_mm (some (zerosArr 1 1))).get 0 0 = 0 ∧
    (base_heights pg1 defaultConfig).get 0 0 = 1/5 ∧
    (0 : ℚ) ≠ 1/5 := by
  refine ⟨?_, rfl, by norm_num⟩
  rw [nextHeights_get _ _ _ 0 0 (by decide) (by decide), cellCeil,
    cellStart_eq (zerosArr 1 1) 0 0 (by decide) (by decide)]
  show (0 : ℚ) + quantize ((uint8_trunc (1/5) : ℕ) : ℚ) 0 = 0
  rw [quantize_zero_step, uint8_trunc_fifth]
  norm_num

/-- Claim C5 (amended): `to_stl_cym` builds, in order, the base plate and
then the cyan, yellow, magenta and key meshes; yellow's, magenta's and
key's floors are exactly the ceiling returned by the preceding layer, but
cyan's floor is the independently constructed uniform `base_heights`
array at `config.base_height`, not the ceiling the base-plate build
returned (which is discarded). -/
theorem C5_amended_layer_order_and_floors (pg : PixelGrid) (cfg : StlConfig) :
    to_stl_cym pg cfg = some
      [("white_base_mesh",
        meshTris (base_plate_height_map pg.cols pg.rows cfg) cfg.height_step_mm
          cfg.pixel_size (some (zerosArr pg.rows pg.cols))),
       ("cyan_mesh",
        meshTris (c_channel pg cfg) cfg.height_step_mm cfg.pixel_size
          (some (base_heights pg cfg))),
       ("yellow_mesh",
        meshTris (y_channel pg cfg) cfg.height_step_mm cfg.pixel_size
          (some (nextHeights (c_channel pg cfg) cfg.height_step_mm
            (some (base_heights pg cfg))))),
       ("magenta_mesh",
        meshTris (m_channel pg cfg) cfg.height_step_mm cfg.pixel_size
          (some (nextHeights (y_channel pg cfg) cfg.height_step_mm
            (some (nextHeights (c_channel pg cfg) cfg.height_step_mm
              (some (base_heights pg cfg))))))),
       ("white_intensity_mesh",
        meshTris (intensity_map pg cfg) cfg.height_step_mm cfg.pixel_size
          (some (nextHeights (m_channel pg cfg) cfg.height_step_mm
            (some (nextHeights (y_channel pg cfg) cfg.height_step_mm
              (some (nextHeights (c_channel pg cfg) cfg.height_step_mm
                (some (base_heights pg cfg)))))))))] := by
  have h0 : create_base_plate pg.cols pg.rows cfg =
      some (meshTris (base_plate_height_map pg.cols pg.rows cfg)
        cfg.height_step_mm cfg.pixel_size (some (zerosArr pg.rows pg.cols))) := by
    rw [create_base_plate,
      create_layer_mesh_some (base_plate_height_map pg.cols pg.rows cfg)
        (zerosArr pg.rows pg.cols) cfg.height_step_mm cfg.pixel_size
        (le_refl _) (le_refl _)]
    rfl
  have h1 : create_color_layer (c_channel pg cfg) (base_heights pg cfg) cfg =
      some (meshTris (c_channel pg cfg) cfg.height_step_mm cfg.pixel_size
          (some (base_heights pg cfg)),
        nextHeights (c_channel pg cfg) cfg.height_step_mm
          (some (base_heights pg cfg))) :=
    create_layer_mesh_some _ _ _ _ (le_refl _) (le_refl _)
  have h2 : create_color_layer (y_channel pg cfg)
      (nextHeights (c_channel pg cfg) cfg.height_step_mm
        (some (base_heights pg cfg))) cfg =
      some (meshTris (y_channel pg cfg) cfg.height_step_mm cfg.pixel_size
          (some (nextHeights (c_channel pg cfg) cfg.height_step_mm
            (some (base_heights pg cfg)))),
        nextHeights (y_channel pg cfg) cfg.height_step_mm
          (some (nextHeights (c_channel pg cfg) cfg.height_step_mm
            (some (base_heights pg cfg))))) :=
    create_layer_mesh_some _ _ _ _ (le_refl _) (le_refl _)
  have h3 : create_color_layer (m_channel pg cfg)
      (nextHeights (y_channel pg cfg) cfg.height_step_mm
        (some (nextHeights (c_channel pg cfg) cfg.height_step_mm
          (some (base_heights pg cfg))))) cfg =
      some (meshTris (m_channel pg cfg) cfg.height_step_mm cfg.pixel_size
          (some (nextHeights (y_channel pg cfg) cfg.height_step_mm
            (some (nextHeights (c_channel pg cfg) cfg.height_step_mm
              (some (base_heights pg cfg)))))),
        nextHeights (m_channel pg cfg) cfg.height_step_mm
          (some (nextHeights (y_channel pg cfg) cfg.height_step_mm
            (some (nextHeights (c_channel pg cfg) cfg.height_step_mm
              (some (base_heights pg cfg))))))) :=
    create_layer_mesh_some _ _ _ _ (le_refl _) (le_refl _)
  have h4 : create_color_layer (intensity_map pg cfg)
      (nextHeights (m_channel pg cfg) cfg.height_step_mm
        (some (nextHeights (y_channel pg cfg) cfg.height_step_mm
          (some (nextHeights (c_channel pg cfg) cfg.height_step_mm
            (some (base_heights pg cfg))))))) cfg =
      some (meshTris (intensity_map pg cfg) cfg.height_step_mm cfg.pixel_size
          (some (nextHeights (m_channel pg cfg) cfg.height_step_mm
            (some (nextHeights (y_channel pg cfg) cfg.height_step_mm
              (some (nextHeights (c_channel pg cfg) cfg.height_step_mm
                (some (base_heights pg cfg)))))))),
        nextHeights (intensity_map pg cfg) cfg.height_step_mm
          (some (nextHeights (m_channel pg cfg) cfg.height_step_mm
            (some (nextHeights (y_channel pg cfg) cfg.height_step_mm
              (some (nextHeights (c_channel pg cfg) cfg.height_step_mm
                (some (base_heights pg cfg))))))))) :=
    create_layer_mesh_some _ _ _ _ (le_refl _) (le_refl _)
  simp only [to_stl_cym, h0, h1, h2, h3, h4]

/-- Concrete 1×1 pixel grid with channel values (10, 20, 250). -/
def pgW : PixelGrid := ⟨1, 1, fun _ _ => (10, 20, 250)⟩

/-- Claim C3: the key/intensity channel input is the exact arithmetic
mean of the three channel values — three times the mean recovers the
exact channel sum (no wraparound or truncation), the mean stays in
[0, 255] for in-range channels, and the key thickness grid is
`normalize_thickness` applied to that mean. -/
theorem C3_key_channel_exact_mean (pg : PixelGrid) (cfg : StlConfig) (y x : ℕ)
    (ha : (pg.px y x).1 ≤ 255) (hb : (pg.px y x).2.1 ≤ 255)
    (hc : (pg.px y x).2.2 ≤ 255) :
    (avg_pixels pg).get y x =
      (((pg.px y x).1 + (pg.px y x).2.1 + (pg.px y x).2.2 : ℕ) : ℚ) / 3 ∧
    3 * (avg_pixels pg).get y x =
      (((pg.px y x).1 + (pg.px y x).2.1 + (pg.px y x).2.2 : ℕ) : ℚ) ∧
    0 ≤ (avg_pixels pg).get y x ∧ (avg_pixels pg).get y x ≤ 255 ∧
    (intensity_map pg cfg).get y x =
      normalize_thickness ((avg_pixels pg).get y x)
        (cfg.layer_heights LayerType.KEY) (cfg.layer_mins LayerType.KEY) := by
  have ha' : ((pg.px y x).1 : ℚ) ≤ 255 := by exact_mod_cast ha
  have hb' : ((pg.px y x).2.1 : ℚ) ≤ 255 := by exact_mod_cast hb
  have hc' : ((pg.px y x).2.2 : ℚ) ≤ 255 := by exact_mod_cast hc
  refine ⟨by show _ = _; push_cast; rfl, ?_, ?_, ?_, rfl⟩
  · show 3 * ((((pg.px y x).1 : ℚ) + ((pg.px y x).2.1 : ℚ) +
      ((pg.px y x).2.2 : ℚ)) / 3) = _
    push_cast
    ring
  · show (0 : ℚ) ≤ (((pg.px y x).1 : ℚ) + ((pg.px y x).2.1 : ℚ) +
      ((pg.px y x).2.2 : ℚ)) / 3
    positivity
  · show (((pg.px y x).1 : ℚ) + ((pg.px y x).2.1 : ℚ) +
      ((pg.px y x).2.2 : ℚ)) / 3 ≤ 255
    rw [div_le_iff₀ (by norm_num : (0 : ℚ) < 3)]
    linarith

/-- Witness for `C3_key_channel_exact_mean` at the concrete pixel
(10, 20, 250). -/
theorem C3_key_channel_exact_mean_witness :
    (avg_pixels pgW).get 0 0 =
      (((pgW.px 0 0).1 + (pgW.px 0 0).2.1 + (pgW.px 0 0).2.2 : ℕ) : ℚ) / 3 ∧
    3 * (avg_pixels pgW).get 0 0 =
      (((pgW.px 0 0).1 + (pgW.px 0 0).2.1 + (pgW.px 0 0).2.2 : ℕ) : ℚ) ∧
    0 ≤ (avg_pixels pgW).get 0 0 ∧ (avg_pixels pgW).get 0 0 ≤ 255 ∧
    (intensity_map pgW defaultConfig).get 0 0 =
      normalize_thickness ((avg_pixels pgW).get 0 0)
        (defaultConfig.layer_heights LayerType.KEY)
        (defaultConfig.layer_mins LayerType.KEY) :=
  C3_key_channel_exact_mean pgW defaultConfig 0 0 (by decide) (by decide)
    (by decide)

/-- `ratSqrt` is exact on perfect squares: the square root of `c * c` is
`|c|`. -/
theorem ratSqrt_sq (c : ℚ) : ratSqrt (c * c) = |c| := by
  rw [ratSqrt, Rat.mul_self_num, Rat.mul_self_den]
  have hnum : (c.num * c.num).toNat = c.num.natAbs * c.num.natAbs := by
    rw [← Int.natAbs_mul_self, Int.toNat_natCast]
  rw [hnum, Nat.sqrt_eq, Nat.sqrt_eq]
  have h1 : ((c.num.natAbs : ℕ) : ℚ) = |(c.num : ℚ)| := by
    rw [Int.cast_natAbs]
    exact Int.cast_abs
  conv_rhs => rw [← Rat.num_div_den c]
  rw [abs_div, h1]
  congr 1
  exact (abs_of_nonneg (by positivity)).symm

/-- Normalizing a nonzero axis-aligned vector by `1 / ratSqrt` of its
squared norm yields a unit vector (squared norm 1). -/
theorem norm3Sq_unit_of_axis (v : Vec3) (hax : axisAligned v)
    (hv : v ≠ ((0 : ℚ), (0 : ℚ), (0 : ℚ))) :
    norm3Sq (vecScale (1 / ratSqrt (norm3Sq v)) v) = 1 := by
  obtain ⟨a, b, c⟩ := v
  rcases hax with ⟨h1, h2⟩ | ⟨h1, h2⟩ | ⟨h1, h2⟩
  · simp only at h1 h2
    subst h1 h2
    have ha : a ≠ 0 := by simpa [Prod.ext_iff] using hv
    have hs : ratSqrt (norm3Sq (a, (0 : ℚ), (0 : ℚ))) = |a| := by
      have hn : norm3Sq (a, (0 : ℚ), (0 : ℚ)) = a * a := by
        simp [norm3Sq]
      rw [hn, ratSqrt_sq]
    rw [hs]
    simp only [norm3Sq, vecScale, mul_zero, add_zero, zero_mul]
    have hr : 1 / |a| * a * (1 / |a| * a) = (a * a) / (|a| * |a|) := by ring
    rw [hr, abs_mul_abs_self, div_self (mul_ne_zero ha ha)]
  · simp only at h1 h2
    subst h1 h2
    have hb : b ≠ 0 := by simpa [Prod.ext_iff] using hv
    have hs : ratSqrt (norm3Sq ((0 : ℚ), b, (0 : ℚ))) = |b| := by
      have hn : norm3Sq ((0 : ℚ), b, (0 : ℚ)) = b * b := by
        simp [norm3Sq]
      rw [hn, ratSqrt_sq]
    rw [hs]
    simp only [norm3Sq, vecScale, mul_zero, add_zero, zero_mul, zero_add]
    have hr : 1 / |b| * b * (1 / |b| * b) = (b * b) / (|b| * |b|) := by ring
    rw [hr, abs_mul_abs_self, div_self (mul_ne_zero hb hb)]
  · simp only at h1 h2
    subst h1 h2
    have hc : c ≠ 0 := by simpa [Prod.ext_iff] using hv
    have hs : ratSqrt (norm3Sq ((0 : ℚ), (0 : ℚ), c)) = |c| := by
      have hn : norm3Sq ((0 : ℚ), (0 : ℚ), c) = c * c := by
        simp [norm3Sq]
      rw [hn, ratSqrt_sq]
    rw [hs]
    simp only [norm3Sq, vecScale, mul_zero, add_zero, zero_mul, zero_add]
    have hr : 1 / |c| * c * (1 / |c| * c) = (c * c) / (|c| * |c|) := by ring
    rw [hr, abs_mul_abs_self, div_self (mul_ne_zero hc hc)]

/-- For a triangle whose cross product is axis-aligned, the stored normal
is either the `(0,0,1)` fallback (zero cross product) or the normalized
cross product, of unit length. -/
theorem triNormal_of_axis (t : Tri) (hax : axisAligned (crossOf t)) :
    (crossOf t = ((0 : ℚ), (0 : ℚ), (0 : ℚ)) ∧ triNormal t = (0, 0, 1)) ∨
    (triNormal t = vecScale (1 / ratSqrt (norm3Sq (crossOf t))) (crossOf t) ∧
      norm3Sq (triNormal t) = 1) := by
  by_cases h : crossOf t = ((0 : ℚ), (0 : ℚ), (0 : ℚ))
  · exact Or.inl ⟨h, by rw [triNormal, if_pos h]⟩
  · have ht : triNormal t =
        vecScale (1 / ratSqrt (norm3Sq (crossOf t))) (crossOf t) := by
      rw [triNormal, if_neg h]
    exact Or.inr ⟨ht, by rw [ht]; exact norm3Sq_unit_of_axis _ hax h⟩

/-- Every triangle of a cell box lies in an axis plane, so its cross
product is axis-aligned. -/
theorem cellTris_crossOf_axisAligned (x y : ℕ) (ps s z : ℚ) (t : Tri)
    (ht : t ∈ cellTris x y ps s z) : axisAligned (crossOf t) := by
  simp only [cellTris, List.mem_cons, List.not_mem_nil, or_false] at ht
  rcases ht with rfl | rfl | rfl | rfl | rfl | rfl | rfl | rfl | rfl | rfl | rfl | rfl
  · exact Or.inr (Or.inr ⟨by simp [crossOf, cross, vsub],
      by simp [crossOf, cross, vsub]⟩)
  · exact Or.inr (Or.inr ⟨by simp [crossOf, cross, vsub],
      by simp [crossOf, cross, vsub]⟩)
  · exact Or.inr (Or.inr ⟨by simp [crossOf, cross, vsub],
      by simp [crossOf, cross, vsub]⟩)
  · exact Or.inr (Or.inr ⟨by simp [crossOf, cross, vsub],
      by simp [crossOf, cross, vsub]⟩)
  · exact Or.inr (Or.inl ⟨by simp [crossOf, cross, vsub],
      by simp [crossOf, cross, vsub]⟩)
  · exact Or.inr (Or.inl ⟨by simp [crossOf, cross, vsub],
      by simp [crossOf, cross, vsub]⟩)
  · exact Or.inr (Or.inl ⟨by simp [crossOf, cross, vsub],
      by simp [crossOf, cross, vsub]⟩)
  · exact Or.inr (Or.inl ⟨by simp [crossOf, cross, vsub],
      by simp [crossOf, cross, vsub]⟩)
  · exact Or.inl ⟨by simp [crossOf, cross, vsub],
      by simp [crossOf, cross, vsub]⟩
  · exact Or.inl ⟨by simp [crossOf, cross, vsub],
      by simp [crossOf, cross, vsub]⟩
  · exact Or.inl ⟨by simp [crossOf, cross, vsub],
      by simp [crossOf, cross, vsub]⟩
  · exact Or.inl ⟨by simp [crossOf, cross, vsub],
      by simp [crossOf, cross, vsub]⟩

/-- Claim C9: every triangle emitted by `create_layer_mesh` stores the
normal `triNormal`; that normal is the normalized cross product
`cross(v1 - v0, v2 - v0)` with squared magnitude 1 when the cross product
is nonzero, and the `(0, 0, 1)` fallback when the cross product vanishes
(degenerate zero-height geometry). -/
theorem C9_stored_normals (hm : NpArray2) (step ps : ℚ)
    (prev : Option NpArray2) (tn : Tri × Vec3)
    (htn : tn ∈ meshTris hm step ps prev) :
    tn.2 = triNormal tn.1 ∧
    ((crossOf tn.1 = ((0 : ℚ), (0 : ℚ), (0 : ℚ)) ∧ tn.2 = (0, 0, 1)) ∨
     (tn.2 = vecScale (1 / ratSqrt (norm3Sq (crossOf tn.1))) (crossOf tn.1) ∧
       norm3Sq tn.2 = 1)) := by
  simp only [meshTris, List.mem_flatMap, List.mem_range] at htn
  obtain ⟨y, hy, x, hx, hmem⟩ := htn
  simp only [cellTriNormals, List.mem_map] at hmem
  obtain ⟨t, ht, rfl⟩ := hmem
  exact ⟨rfl, triNormal_of_axis t (cellTris_crossOf_axisAligned x y ps _ _ t ht)⟩

/-- Concrete bottom-face triangle of the single cell of `hm1` with
`pixel_size = 1` and no previous layer. -/
def tW : Tri := ⟨(0, 0, 0), (1, 1, 0), (1, 0, 0)⟩

/-- Witness for `C9_stored_normals` on a concrete mesh and triangle. -/
theorem C9_stored_normals_witness :
    (tW, triNormal tW) ∈ meshTris hm1 0 1 none ∧
    ((tW, triNormal tW).2 = triNormal (tW, triNormal tW).1 ∧
    ((crossOf (tW, triNormal tW).1 = ((0 : ℚ), (0 : ℚ), (0 : ℚ)) ∧
        (tW, triNormal tW).2 = (0, 0, 1)) ∨
     ((tW, triNormal tW).2 =
        vecScale (1 / ratSqrt (norm3Sq (crossOf (tW, triNormal tW).1)))
          (crossOf (tW, triNormal tW).1) ∧
       norm3Sq (tW, triNormal tW).2 = 1))) := by
  have hmem : (tW, triNormal tW) ∈ meshTris hm1 0 1 none := by
    simp only [meshTris, List.mem_flatMap, List.mem_range]
    refine ⟨0, by decide, 0, by decide, ?_⟩
    simp only [cellTriNormals, List.mem_map]
    refine ⟨tW, ?_, rfl⟩
    simp [cellTris, tW, cellStart, startHeight]
  exact ⟨hmem, C9_stored_normals hm1 0 1 none _ hmem⟩

/-- Length of a `flatMap` over `List.range` with constant block length. -/
theorem length_flatMap_const {β : Type} (n k : ℕ) (f : ℕ → List β)
    (h : ∀ i < n, (f i).length = k) :
    ((List.range n).flatMap f).length = n * k := by
  induction n with
  | zero => simp
  | succ m ih =>
    rw [List.range_succ, List.flatMap_append, List.length_append,
      ih (fun i hi => h i (by omega))]
    simp [h m (by omega)]
    ring

/-- Each cell contributes exactly 12 triangles. -/
theorem cellTriNormals_length (x y : ℕ) (ps s z : ℚ) :
    (cellTriNormals x y ps s z).length = 12 := rfl

/-- A cell's triangles are members of the full mesh. -/
theorem mem_meshTris_of_cell (hm : NpArray2) (step ps : ℚ)
    (prev : Option NpArray2) (y x : ℕ) (hy : y < hm.rows) (hx : x < hm.cols)
    (tn : Tri × Vec3)
    (h : tn ∈ cellTriNormals x y ps (cellStart prev y x)
      (cellCeil hm step prev y x)) :
    tn ∈ meshTris hm step ps prev := by
  rw [meshTris]
  exact List.mem_flatMap.mpr ⟨y, List.mem_range.mpr hy,
    List.mem_flatMap.mpr ⟨x, List.mem_range.mpr hx, h⟩⟩

/-- Every vertex of every cell triangle is one of the 8 box corners. -/
theorem cellTris_verts_in_corners (x y : ℕ) (ps s z : ℚ) (tn : Tri × Vec3)
    (h : tn ∈ cellTriNormals x y ps s z) :
    tn.1.v0 ∈ cellCorners x y ps s z ∧ tn.1.v1 ∈ cellCorners x y ps s z ∧
    tn.1.v2 ∈ cellCorners x y ps s z := by
  simp only [cellTriNormals, List.mem_map] at h
  obtain ⟨t, ht, rfl⟩ := h
  simp only [cellTris, List.mem_cons, List.not_mem_nil, or_false] at ht
  rcases ht with rfl | rfl | rfl | rfl | rfl | rfl | rfl | rfl | rfl | rfl | rfl | rfl <;>
    refine ⟨?_, ?_, ?_⟩ <;> simp [cellCorners]

/-- Every one of the 8 box corners occurs among the cell's triangle
vertices. -/
theorem cellCorners_covered (x y : ℕ) (ps s z : ℚ) (c : Vec3)
    (h : c ∈ cellCorners x y ps s z) :
    ∃ tn ∈ cellTriNormals x y ps s z,
      c = tn.1.v0 ∨ c = tn.1.v1 ∨ c = tn.1.v2 := by
  simp only [cellCorners, List.mem_cons, List.not_mem_nil, or_false] at h
  rcases h with rfl | rfl | rfl | rfl | rfl | rfl | rfl | rfl <;>
    simp [cellTriNormals, cellTris]

/-- The 12 triangles of one cell close up: their signed-volume
contributions sum to the geometric box volume `ps² · (z - s)`. -/
theorem cellTris_signedVolSum (x y : ℕ) (ps s z : ℚ) :
    signedVolSum (cellTriNormals x y ps s z) = ps * ps * (z - s) := by
  simp [signedVolSum, cellTriNormals, cellTris, triVol, dot3, cross]
  ring

/-- Claim C8: the mesh built by `create_layer_mesh` has exactly 12
triangles per grid cell (12·Y·X in total); each cell's 12 triangles use
exactly the 8 corners of the axis-aligned box over the cell's
`[x·ps, (x+1)·ps] × [y·ps, (y+1)·ps]` footprint from its floor to its
ceiling (every vertex is a corner and every corner is used), and they
form a closed surface: their signed volumes sum to the box volume. -/
theorem C8_twelve_triangle_cell_boxes (hm : NpArray2) (step ps : ℚ)
    (prev : Option NpArray2) :
    (meshTris hm step ps prev).length = 12 * (hm.rows * hm.cols) ∧
    ∀ y < hm.rows, ∀ x < hm.cols,
      (cellTriNormals x y ps (cellStart prev y x)
        (cellCeil hm step prev y x)).length = 12 ∧
      (∀ tn ∈ cellTriNormals x y ps (cellStart prev y x)
          (cellCeil hm step prev y x),
        tn ∈ meshTris hm step ps prev ∧
        tn.1.v0 ∈ cellCorners x y ps (cellStart prev y x)
          (cellCeil hm step prev y x) ∧
        tn.1.v1 ∈ cellCorners x y ps (cellStart prev y x)
          (cellCeil hm step prev y x) ∧
        tn.1.v2 ∈ cellCorners x y ps (cellStart prev y x)
          (cellCeil hm step prev y x)) ∧
      (∀ c ∈ cellCorners x y ps (cellStart prev y x)
          (cellCeil hm step prev y x),
        ∃ tn ∈ cellTriNormals x y ps (cellStart prev y x)
            (cellCeil hm step prev y x),
          c = tn.1.v0 ∨ c = tn.1.v1 ∨ c = tn.1.v2) ∧
      signedVolSum (cellTriNormals x y ps (cellStart prev y x)
        (cellCeil hm step prev y x)) =
        ps * ps * (cellCeil hm step prev y x - cellStart prev y x) := by
  constructor
  · rw [meshTris, length_flatMap_const hm.rows (hm.cols * 12) _ ?_]
    · ring
    · intro y hy
      exact length_flatMap_const hm.cols 12 _ fun x hx =>
        cellTriNormals_length x y ps _ _
  · intro y hy x hx
    refine ⟨cellTriNormals_length x y ps _ _, ?_, ?_,
      cellTris_signedVolSum x y ps _ _⟩
    · intro tn htn
      have hv := cellTris_verts_in_corners x y ps _ _ tn htn
      exact ⟨mem_meshTris_of_cell hm step ps prev y x hy hx tn htn,
        hv.1, hv.2.1, hv.2.2⟩
    · intro c hc
      exact cellCorners_covered x y ps _ _ c hc

/-- Witness for `C8_twelve_triangle_cell_boxes` at a concrete 1×1 mesh. -/
theorem C8_twelve_triangle_cell_boxes_witness :
    (meshTris hm1 0 1 none).length = 12 * (hm1.rows * hm1.cols) ∧
    signedVolSum (cellTriNormals 0 0 1 (cellStart none 0 0)
      (cellCeil hm1 0 none 0 0)) =
      1 * 1 * (cellCeil hm1 0 none 0 0 - cellStart none 0 0) :=
  ⟨(C8_twelve_triangle_cell_boxes hm1 0 1 none).1,
   ((C8_twelve_triangle_cell_boxes hm1 0 1 none).2 0 (by decide) 0
     (by decide)).2.2.2⟩
